import Mathlib

set_option maxRecDepth 10000

/-!
Shallow embedding of the EIP-3009 authorization core of the stablecoin-evm
example scripts: EIP-712 digest construction, signature normalization,
amount conversion and the pre-flight validation performed before on-chain
submission.  Byte strings are modelled as `List Nat` with every element
below 256; machine words are `Nat` reduced modulo the relevant power of two.
-/

namespace Stablecoin

/-- Big-endian byte encoding of `v` in exactly `n` bytes (low-order bytes of
`v` when it overflows, as the ABI head encoding does). -/
def beBytes : Nat → Nat → List Nat
  | 0, _ => []
  | n + 1, v => beBytes n (v / 256) ++ [v % 256]

/-- ASCII character codes of a string. -/
def strCodes (s : String) : List Nat := s.data.map Char.toNat

/-- Decimal ASCII representation of a natural number, as JavaScript string
conversion produces it. -/
def decCodes (n : Nat) : List Nat := (Nat.toDigits 10 n).map Char.toNat

/-! ## Keccak-256

Executable model of the `web3.utils.keccak256` primitive the scripts call.
State is 25 lanes of 64 bits, kept as a `List Nat`; lane (x, y) sits at
index `x + 5 * y`. -/

/-- All-ones 64-bit mask. -/
def MASK64 : Nat := 2 ^ 64 - 1

/-- Rotate a 64-bit word left by `n` (`n ≤ 63`). -/
def rotl64 (x n : Nat) : Nat := ((x <<< n) % 2 ^ 64) ||| (x >>> (64 - n))

/-- Keccak round constants. -/
def keccakRC : List Nat :=
  [0x0000000000000001, 0x0000000000008082, 0x800000000000808a, 0x8000000080008000,
   0x000000000000808b, 0x0000000080000001, 0x8000000080008081, 0x8000000000008009,
   0x000000000000008a, 0x0000000000000088, 0x0000000080008009, 0x000000008000000a,
   0x000000008000808b, 0x800000000000008b, 0x8000000000008089, 0x8000000000008003,
   0x8000000000008002, 0x8000000000000080, 0x000000000000800a, 0x800000008000000a,
   0x8000000080008081, 0x8000000000008080, 0x0000000080000001, 0x8000000080008008]

/-- Rotation offsets of the rho step for the first three rows, indexed by
`x + 5 * y`. -/
def keccakRhoLow : List Nat :=
  [0, 1, 62, 28, 27,
   36, 44, 6, 55, 20,
   3, 10, 43, 25, 39]

/-- Rotation offsets of the rho step for the last two rows. -/
def keccakRhoHigh : List Nat :=
  [41, 45, 15, 21, 8,
   18, 2, 61, 56, 14]

/-- Rotation offsets of the rho step, indexed by `x + 5 * y`. -/
def keccakRho : List Nat := keccakRhoLow ++ keccakRhoHigh

/-- Lane (x, y) of a state, coordinates taken modulo 5. -/
def lane (s : List Nat) (x y : Nat) : Nat := s.getD (x % 5 + 5 * (y % 5)) 0

/-- Theta step. -/
def theta (s : List Nat) : List Nat :=
  (List.range 25).map (fun i =>
    let x := i % 5
    let c := fun j => lane s j 0 ^^^ lane s j 1 ^^^ lane s j 2 ^^^ lane s j 3 ^^^ lane s j 4
    s.getD i 0 ^^^ c ((x + 4) % 5) ^^^ rotl64 (c ((x + 1) % 5)) 1)

/-- Combined rho and pi steps: target lane (x, y) receives the rotated source
lane ((x + 3 y) mod 5, x). -/
def rhoPi (s : List Nat) : List Nat :=
  (List.range 25).map (fun i =>
    let xt := i % 5
    let yt := i / 5
    let xs := (xt + 3 * yt) % 5
    rotl64 (lane s xs xt) (keccakRho.getD (xs + 5 * xt) 0))

/-- Chi step. -/
def chi (s : List Nat) : List Nat :=
  (List.range 25).map (fun i =>
    let x := i % 5
    let y := i / 5
    lane s x y ^^^ ((lane s (x + 1) y ^^^ MASK64) &&& lane s (x + 2) y))

/-- Iota step: xor the round constant into lane (0, 0). -/
def iotaStep (rc : Nat) (s : List Nat) : List Nat :=
  match s with
  | [] => []
  | a :: rest => (a ^^^ rc) :: rest

/-- The 24-round Keccak-f[1600] permutation. -/
def keccakF (s : List Nat) : List Nat :=
  keccakRC.foldl (fun st rc => iotaStep rc (chi (rhoPi (theta st)))) s

/-- Multi-rate padding for rate 136 (Keccak-256 as used by Ethereum: suffix
byte 0x01, final byte 0x80). -/
def pad101 (msg : List Nat) : List Nat :=
  let padLen := 136 - msg.length % 136
  if padLen = 1 then msg ++ [0x81]
  else msg ++ 0x01 :: (List.replicate (padLen - 2) 0 ++ [0x80])

/-- Split a byte list into 136-byte blocks; the fuel argument bounds the
recursion and is instantiated with the list length. -/
def chunks136 : Nat → List Nat → List (List Nat)
  | 0, _ => []
  | _, [] => []
  | fuel + 1, l => l.take 136 :: chunks136 fuel (l.drop 136)

/-- Little-endian load of lane `i` from a 136-byte block. -/
def loadLane (block : List Nat) (i : Nat) : Nat :=
  (List.range 8).foldr (fun j acc => acc * 256 + block.getD (8 * i + j) 0) 0

/-- Xor one padded block into the first 17 lanes of the state. -/
def absorb (s block : List Nat) : List Nat :=
  (List.range 25).map (fun i => s.getD i 0 ^^^ (if i < 17 then loadLane block i else 0))

/-- Keccak-256 of a byte string: pad, absorb every block through the
permutation, then squeeze the first 32 bytes of the state. -/
def keccak256 (msg : List Nat) : List Nat :=
  let padded := pad101 msg
  let final := (chunks136 padded.length padded).foldl
    (fun st b => keccakF (absorb st b)) (List.replicate 25 0)
  (List.range 32).map (fun i => (final.getD (i / 8) 0 >>> (8 * (i % 8))) % 256)

/-! ## Hex strings

The scripts pass byte strings around as `0x`-prefixed lowercase hex strings
(`web3.utils.keccak256` and `web3.eth.abi.encodeParameters` consume and
produce them).  Hex strings are modelled as lists of ASCII codes; the
`strip0x` step of the source is reflected by keeping the strings unprefixed. -/

/-- ASCII code of the lowercase hex digit for `n < 16`. -/
def hexDigitChar (n : Nat) : Nat := if n < 10 then 48 + n else 87 + n

/-- Two-character lowercase hex rendering of one byte. -/
def byteToHexChars (b : Nat) : List Nat := [hexDigitChar (b / 16), hexDigitChar (b % 16)]

/-- Lowercase hex rendering of a byte string. -/
def bytesToHexChars (l : List Nat) : List Nat := l.flatMap byteToHexChars

/-- Numeric value of one hex digit character (0-9, a-f, A-F). -/
def hexCharVal (c : Nat) : Nat :=
  if 48 ≤ c ∧ c ≤ 57 then c - 48
  else if 97 ≤ c ∧ c ≤ 102 then c - 87
  else if 65 ≤ c ∧ c ≤ 70 then c - 55
  else 0

/-- Byte decoding of a hex string, two characters per byte. -/
def hexCharsToBytes : List Nat → List Nat
  | c1 :: c2 :: rest => (hexCharVal c1 * 16 + hexCharVal c2) :: hexCharsToBytes rest
  | _ => []

/-! ## EIP-712 digest construction

Embeds `signEIP712` (working-transfer-test.js) and the identical inline
digest computation of `createReceiveAuthorization`
(working-receive-example.js) and `createTransferAuthorization` (part_004). -/

/-- Head encoding of `web3.eth.abi.encodeParameters` for the parameter list
`["bytes32", "address", "address", "uint256", "uint256", "uint256", "bytes32"]`:
every static parameter occupies 32 bytes; addresses are encoded as their
160-bit numeric value in a 32-byte big-endian word, uint256 values as 32-byte
big-endian words, bytes32 values verbatim. -/
def encodeParameters (typeHash : List Nat) (fromA toA value validAfter validBefore : Nat)
    (nonce : List Nat) : List Nat :=
  typeHash ++ beBytes 32 (fromA % 2 ^ 160) ++ beBytes 32 (toA % 2 ^ 160) ++
    beBytes 32 value ++ beBytes 32 validAfter ++ beBytes 32 validBefore ++ nonce

/-- Struct hash of the source: `web3.utils.keccak256` applied to the hex
string produced by `encodeParameters` (hashing the byte decoding of that
hex string). -/
def structHash (typeHash : List Nat) (fromA toA value validAfter validBefore : Nat)
    (nonce : List Nat) : List Nat :=
  keccak256 (hexCharsToBytes (bytesToHexChars
    (encodeParameters typeHash fromA toA value validAfter validBefore nonce)))

/-- Digest of `signEIP712`: keccak256 of the hex string
`"1901" ++ strip0x(domainSeparator) ++ strip0x(structHash)`. -/
def signEIP712digest (domainSeparator typeHash : List Nat)
    (fromA toA value validAfter validBefore : Nat) (nonce : List Nat) : List Nat :=
  keccak256 (hexCharsToBytes (strCodes (r"1901") ++ bytesToHexChars domainSeparator ++
    bytesToHexChars (structHash typeHash fromA toA value validAfter validBefore nonce)))

/-- Digest construction exactly as the specification words it: keccak256 of
the two bytes 0x19 0x01, the domain separator and the struct hash, where the
struct hash is keccak256 of the ABI tuple with address fields left-padded to
32 bytes, uint256 fields at 32 bytes and bytes32 fields as-is. -/
def specStructEncoding (typeHash : List Nat) (fromA toA value validAfter validBefore : Nat)
    (nonce : List Nat) : List Nat :=
  typeHash ++ (List.replicate 12 0 ++ beBytes 20 fromA) ++ (List.replicate 12 0 ++ beBytes 20 toA) ++
    beBytes 32 value ++ beBytes 32 validAfter ++ beBytes 32 validBefore ++ nonce

/-- Digest as the specification words it; compare with `signEIP712digest`. -/
def specDigest (domainSeparator typeHash : List Nat)
    (fromA toA value validAfter validBefore : Nat) (nonce : List Nat) : List Nat :=
  keccak256 (0x19 :: 0x01 :: (domainSeparator ++
    keccak256 (specStructEncoding typeHash fromA toA value validAfter validBefore nonce)))

/-! ## Type hashes -/

/-- Canonical EIP-3009 TransferWithAuthorization type signature string. -/
def transferTypeString : List Nat :=
  strCodes (r"TransferWithAuthorization(address from,address to,uint256 value,uint256 validAfter,uint256 validBefore,bytes32 nonce)")

/-- TRANSFER_WITH_AUTHORIZATION_TYPEHASH (part_004) /
`transferWithAuthorizationTypeHash` (final-working-transfer.js,
working-transfer-test.js): keccak256 of the canonical type string. -/
def TRANSFER_WITH_AUTHORIZATION_TYPEHASH : List Nat := keccak256 transferTypeString

/-- Well-known published EIP-3009 constant
0x7c7c6cdb67a18743f49ec6fa9b35f50d52ed05cbed4cc592e13b44501c1a2267. -/
def eip3009TransferTypeHash : List Nat :=
  [0x7c, 0x7c, 0x6c, 0xdb, 0x67, 0xa1, 0x87, 0x43, 0xf4, 0x9e, 0xc6, 0xfa, 0x9b, 0x35, 0xf5, 0x0d,
   0x52, 0xed, 0x05, 0xcb, 0xed, 0x4c, 0xc5, 0x92, 0xe1, 0x3b, 0x44, 0x50, 0x1c, 0x1a, 0x22, 0x67]

/-- The canonical string with the first two fields reordered. -/
def transferTypeStringReordered : List Nat :=
  strCodes (r"TransferWithAuthorization(address to,address from,uint256 value,uint256 validAfter,uint256 validBefore,bytes32 nonce)")

/-- The canonical string with one extra space after the first comma. -/
def transferTypeStringWhitespace : List Nat :=
  strCodes (r"TransferWithAuthorization(address from, address to,uint256 value,uint256 validAfter,uint256 validBefore,bytes32 nonce)")

/-! ## Personal-message (EIP-191) signing

Model of `wallet.signMessage` from ethers, used by
`WorkingReceiveExample.signAuthorization` (working-receive-example.js) and
`CorrectTransferSender.signAuthorization` (part_004): the bytes handed to
the ECDSA primitive are the keccak256 of the personal-message envelope, not
the message itself. -/

/-- Hash actually signed by `wallet.signMessage msg`: keccak256 of
0x19 ‖ "Ethereum Signed Message:" ‖ 0x0a ‖ decimal length ‖ msg. -/
def signMessageHash (msg : List Nat) : List Nat :=
  keccak256 (0x19 :: (strCodes (r"Ethereum Signed Message:") ++ [0x0a] ++
    decCodes msg.length ++ msg))

/-- Value the ECDSA primitive signs in `signAuthorization` for a given
EIP-712 digest (the source calls `wallet.signMessage(getBytes(digest))`). -/
def signAuthorizationSignedHash (digest : List Nat) : List Nat := signMessageHash digest

/-! ## Signature normalization

Embeds `formatSignatureForContract` (final-working-transfer.js),
`formatSignatureForECRecover` (working-receive-example.js and part_004) and
`packSignature` (working-transfer-test.js) at the byte level: a 132-character
`0x`-prefixed hex signature corresponds to a 65-byte list. -/

/-- formatSignatureForContract: reject inputs that are not 65 bytes, split
into r, s, v, lift v by 27 when below 27, repack r ‖ s ‖ v. -/
def formatSignatureForContract (sig : List Nat) : Option (List Nat) :=
  if sig.length = 65 then
    let r := sig.take 32
    let s := (sig.drop 32).take 32
    let v := sig.getD 64 0
    let normalizedV := if v < 27 then v + 27 else v
    some (r ++ s ++ [normalizedV])
  else none

/-- formatSignatureForECRecover: identical split, normalization and
repacking (the two scripts differ only in how they strip the 0x prefix). -/
def formatSignatureForECRecover (sig : List Nat) : Option (List Nat) :=
  if sig.length = 65 then
    let r := sig.take 32
    let s := (sig.drop 32).take 32
    let v := sig.getD 64 0
    let normalizedV := if v < 27 then v + 27 else v
    some (r ++ s ++ [normalizedV])
  else none

/-- packSignature: r ‖ s ‖ (v − 27).  Modelled for the v ≥ 27 values that
`ecSign` produces; for v < 27 the JavaScript writes a malformed negative hex
token instead of a byte, which equally violates a 27/28 final byte. -/
def packSignature (r s : List Nat) (v : Nat) : List Nat := r ++ s ++ [v - 27]

/-! ## Amount conversion

Model of `ethers.parseUnits(amount, 6)` as called by
`createTransferAuthorization` (run-transfer-example.js) and
`createReceiveAuthorization` (part_000): exact decimal-string scaling by
10^6 with no floating point; the amount is the ASCII decimal string. -/

/-- Whether a character code is a decimal digit. -/
def isDigitCode (c : Nat) : Bool := 48 ≤ c && c ≤ 57

/-- Numeric value of a digit string. -/
def digitsVal (l : List Nat) : Nat := l.foldl (fun acc c => acc * 10 + (c - 48)) 0

/-- ethers.parseUnits with 6 decimals: split at the decimal point, require
digit characters and at most six fraction digits, scale exactly. -/
def parseUnits6 (s : List Nat) : Option Nat :=
  let whole := s.takeWhile (fun c => c ≠ 46)
  let rest := s.dropWhile (fun c => c ≠ 46)
  match rest with
  | [] =>
    if !whole.isEmpty && whole.all isDigitCode then some (digitsVal whole * 10 ^ 6) else none
  | _ :: frac =>
    if !whole.isEmpty && whole.all isDigitCode && !frac.isEmpty && frac.all isDigitCode &&
        frac.length ≤ 6 then
      some (digitsVal whole * 10 ^ 6 + digitsVal frac * 10 ^ (6 - frac.length))
    else none

/-- Value field assembled by createTransferAuthorization
(run-transfer-example.js line 146): `parseUnits` with no further check on
the amount. -/
def createTransferAuthorizationValue (amount : List Nat) : Option Nat := parseUnits6 amount

/-! ## Pre-flight validation

Embeds the checks the execution helpers run before the external contract
call: `FiatTokenReceiver.receiveWithAuthorization` (run-receive-example.js,
part_003), `FiatTokenSender.transferWithAuthorization`
(run-transfer-example.js) and `WorkingFiatTokenSender.executeTransferWithAuth`
(part_005).  A JavaScript `throw` is an `Except.error`; reaching the contract
call is `Except.ok` carrying the submitted argument tuple. -/

/-- ASCII lowering as JavaScript `toLowerCase` acts on address strings. -/
def lowerChar (c : Nat) : Nat := if 65 ≤ c ∧ c ≤ 90 then c + 32 else c

/-- Case-normalized form of a textual address. -/
def lowerStr (s : List Nat) : List Nat := s.map lowerChar

/-- Authorization payload fields the helpers inspect and forward. -/
structure Authorization where
  fromAddr : List Nat
  toAddr : List Nat
  value : Nat
  validAfter : Nat
  validBefore : Nat
  nonce : List Nat
deriving DecidableEq

/-- Errors thrown by the receive helper before submission. -/
inductive ReceiveError where
  | recipientMismatch
  | notYetValid
  | expired
  | alreadyUsed
deriving DecidableEq

/-- Errors thrown by the transfer helpers before submission. -/
inductive TransferError where
  | notYetValid
  | expired
  | alreadyUsed
  | insufficientBalance
deriving DecidableEq

/-- Argument tuple handed to the external contract call. -/
structure Submission where
  fromAddr : List Nat
  toAddr : List Nat
  value : Nat
  validAfter : Nat
  validBefore : Nat
  nonce : List Nat
deriving DecidableEq

/-- FiatTokenReceiver.receiveWithAuthorization (run-receive-example.js lines
69-108, identically part_003 lines 846-887): recipient check first, then the
two time checks, then the used-nonce check, then the contract call. -/
def receiveWithAuthorization (auth : Authorization) (receiverAddr : List Nat)
    (currentTime : Nat) (isUsed : Bool) : Except ReceiveError Submission :=
  if lowerStr auth.toAddr ≠ lowerStr receiverAddr then .error .recipientMismatch
  else if currentTime < auth.validAfter then .error .notYetValid
  else if auth.validBefore < currentTime then .error .expired
  else if isUsed then .error .alreadyUsed
  else .ok ⟨auth.fromAddr, auth.toAddr, auth.value, auth.validAfter, auth.validBefore, auth.nonce⟩

/-- FiatTokenSender.transferWithAuthorization (run-transfer-example.js lines
73-97): the two time checks, then the used-nonce check, then the call. -/
def transferWithAuthorization (auth : Authorization) (currentTime : Nat)
    (isUsed : Bool) : Except TransferError Submission :=
  if currentTime < auth.validAfter then .error .notYetValid
  else if auth.validBefore < currentTime then .error .expired
  else if isUsed then .error .alreadyUsed
  else .ok ⟨auth.fromAddr, auth.toAddr, auth.value, auth.validAfter, auth.validBefore, auth.nonce⟩

/-- WorkingFiatTokenSender.executeTransferWithAuth (part_005 lines 156-224):
a 60-second tolerance buffer on validAfter, then expiry, used-nonce and
balance checks, then the call.  Natural subtraction agrees with the
JavaScript number arithmetic here because a negative `validAfter - 60`
makes the comparison false exactly as a clamped zero does. -/
def executeTransferWithAuth (auth : Authorization) (currentBlockTime : Nat)
    (isUsed : Bool) (balance : Nat) : Except TransferError Submission :=
  if currentBlockTime < auth.validAfter - 60 then .error .notYetValid
  else if auth.validBefore < currentBlockTime then .error .expired
  else if isUsed then .error .alreadyUsed
  else if balance < auth.value then .error .insufficientBalance
  else .ok ⟨auth.fromAddr, auth.toAddr, auth.value, auth.validAfter, auth.validBefore, auth.nonce⟩

/-- Five-way classification named by the specification. -/
inductive ValidationResult where
  | PENDING
  | EXECUTABLE
  | EXPIRED
  | CONSUMED
  | UNAUTHORIZED_SUBMITTER
deriving DecidableEq

/-- Classification induced by the receive helper's decision structure: each
throw site mapped to its class, reaching the contract call to EXECUTABLE. -/
def outcomeOf : Except ReceiveError Submission → ValidationResult
  | .ok _ => .EXECUTABLE
  | .error .recipientMismatch => .UNAUTHORIZED_SUBMITTER
  | .error .notYetValid => .PENDING
  | .error .expired => .EXPIRED
  | .error .alreadyUsed => .CONSUMED

/-! ## Sanity anchors for the keccak model -/

/-- Keccak-256 of the empty string, standard test vector. -/
theorem keccak256_empty_vector :
    keccak256 [] =
      [0xc5, 0xd2, 0x46, 0x01, 0x86, 0xf7, 0x23, 0x3c, 0x92, 0x7e, 0x7d, 0xb2, 0xdc, 0xc7, 0x03,
       0xc0, 0xe5, 0x00, 0xb6, 0x53, 0xca, 0x82, 0x27, 0x3b, 0x7b, 0xfa, 0xd8, 0x04, 0x5d, 0x85,
       0xa4, 0x70] := by decide

/-- Keccak-256 of "abc", standard test vector. -/
theorem keccak256_abc_vector :
    keccak256 (strCodes (r"abc")) =
      [0x4e, 0x03, 0x65, 0x7a, 0xea, 0x45, 0xa9, 0x4f, 0xc7, 0xd4, 0x7b, 0xa8, 0x26, 0xc8, 0xd6,
       0x67, 0xc0, 0xd1, 0xe6, 0xe3, 0x3a, 0x64, 0xa0, 0x36, 0xec, 0x44, 0xf5, 0x8f, 0xa1, 0x2d,
       0x6c, 0x45] := by decide

/-! ## Helper lemmas -/

theorem beBytes_mem_lt : ∀ n v, ∀ b ∈ beBytes n v, b < 256 := by
  intro n
  induction n with
  | zero => intro v b hb; simp [beBytes] at hb
  | succ n ih =>
    intro v b hb
    simp only [beBytes, List.mem_append, List.mem_singleton] at hb
    rcases hb with hb | hb
    · exact ih _ b hb
    · subst hb; exact Nat.mod_lt _ (by norm_num)

theorem beBytes_zero : ∀ n, beBytes n 0 = List.replicate n 0 := by
  intro n
  induction n with
  | zero => rfl
  | succ n ih => simp [beBytes, ih, List.replicate_succ']

theorem beBytes_add_of_lt : ∀ n m v, v < 256 ^ n →
    beBytes (m + n) v = List.replicate m 0 ++ beBytes n v := by
  intro n
  induction n with
  | zero =>
    intro m v hv
    interval_cases v
    simp [beBytes, beBytes_zero]
  | succ n ih =>
    intro m v hv
    have h1 : m + (n + 1) = (m + n) + 1 := by omega
    have h2 : v / 256 < 256 ^ n := by
      rw [Nat.div_lt_iff_lt_mul (by norm_num)]
      calc v < 256 ^ (n + 1) := hv
        _ = 256 ^ n * 256 := by ring
    rw [h1]
    show beBytes (m + n) (v / 256) ++ [v % 256] = List.replicate m 0 ++ beBytes (n + 1) v
    rw [ih m (v / 256) h2]
    simp [beBytes, List.append_assoc]

theorem keccak256_mem_lt (msg : List Nat) : ∀ b ∈ keccak256 msg, b < 256 := by
  intro b hb
  simp only [keccak256, List.mem_map] at hb
  obtain ⟨i, _, hi⟩ := hb
  subst hi
  exact Nat.mod_lt _ (by norm_num)

theorem hexCharVal_hexDigitChar : ∀ d < 16, hexCharVal (hexDigitChar d) = d := by decide

theorem byteToHexChars_roundtrip (b : Nat) (hb : b < 256) :
    hexCharVal (hexDigitChar (b / 16)) * 16 + hexCharVal (hexDigitChar (b % 16)) = b := by
  rw [hexCharVal_hexDigitChar (b / 16) (by omega), hexCharVal_hexDigitChar (b % 16) (by omega)]
  omega

theorem hexCharsToBytes_append : ∀ l l2 : List Nat, l.length % 2 = 0 →
    hexCharsToBytes (l ++ l2) = hexCharsToBytes l ++ hexCharsToBytes l2
  | [], _, _ => rfl
  | [c], _, h => by simp at h
  | c1 :: c2 :: rest, l2, h => by
    simp only [List.cons_append, hexCharsToBytes, List.length_cons, List.append_eq] at h ⊢
    rw [hexCharsToBytes_append rest l2 (by omega)]

theorem hexRoundtrip : ∀ l : List Nat, (∀ b ∈ l, b < 256) →
    hexCharsToBytes (bytesToHexChars l) = l := by
  intro l
  induction l with
  | nil => intro _; rfl
  | cons b rest ih =>
    intro hl
    have hb : b < 256 := hl b (by simp)
    show hexCharsToBytes (byteToHexChars b ++ bytesToHexChars rest) = b :: rest
    simp only [byteToHexChars, List.cons_append, List.nil_append, hexCharsToBytes,
      List.append_eq]
    rw [byteToHexChars_roundtrip b hb, ih (fun x hx => hl x (by simp [hx]))]

theorem bytesToHexChars_length_even (l : List Nat) : (bytesToHexChars l).length % 2 = 0 := by
  induction l with
  | nil => rfl
  | cons b rest ih =>
    show (byteToHexChars b ++ bytesToHexChars rest).length % 2 = 0
    simp only [List.length_append, byteToHexChars, List.length_cons, List.length_nil]
    omega

theorem beBytes32_address (a : Nat) (ha : a < 2 ^ 160) :
    beBytes 32 a = List.replicate 12 0 ++ beBytes 20 a := by
  have hpow : (256 : Nat) ^ 20 = 2 ^ 160 := by norm_num
  exact beBytes_add_of_lt 20 12 a (by omega)

theorem encodeParameters_mem_lt (th nonce : List Nat) (fromA toA value va vb : Nat)
    (hth : ∀ b ∈ th, b < 256) (hn : ∀ b ∈ nonce, b < 256) :
    ∀ b ∈ encodeParameters th fromA toA value va vb nonce, b < 256 := by
  intro b hb
  unfold encodeParameters at hb
  simp only [List.mem_append] at hb
  rcases hb with ((((((hb | hb) | hb) | hb) | hb) | hb) | hb)
  · exact hth b hb
  · exact beBytes_mem_lt _ _ b hb
  · exact beBytes_mem_lt _ _ b hb
  · exact beBytes_mem_lt _ _ b hb
  · exact beBytes_mem_lt _ _ b hb
  · exact beBytes_mem_lt _ _ b hb
  · exact hn b hb

/-! ## Claim theorems -/

/-- C1: for every authorization tuple and every domain separator, the digest
computed by `signEIP712` (and identically by `createReceiveAuthorization`)
equals keccak256 of the two bytes 0x19 0x01, the 32-byte domain separator
and the struct hash, where the struct hash is keccak256 of the ABI encoding
of (typeHash, from, to, value, validAfter, validBefore, nonce) with address
fields left-padded to 32 bytes, uint256 fields at 32 bytes and bytes32
fields as-is. -/
theorem signEIP712_digest_spec (ds th nonce : List Nat)
    (fromA toA value validAfter validBefore : Nat)
    (hds : ∀ b ∈ ds, b < 256) (hth : ∀ b ∈ th, b < 256) (hn : ∀ b ∈ nonce, b < 256)
    (hf : fromA < 2 ^ 160) (ht : toA < 2 ^ 160) :
    signEIP712digest ds th fromA toA value validAfter validBefore nonce =
      specDigest ds th fromA toA value validAfter validBefore nonce := by
  have henc : encodeParameters th fromA toA value validAfter validBefore nonce =
      specStructEncoding th fromA toA value validAfter validBefore nonce := by
    unfold encodeParameters specStructEncoding
    rw [Nat.mod_eq_of_lt hf, Nat.mod_eq_of_lt ht, beBytes32_address fromA hf,
      beBytes32_address toA ht]
  have hsh : structHash th fromA toA value validAfter validBefore nonce =
      keccak256 (specStructEncoding th fromA toA value validAfter validBefore nonce) := by
    unfold structHash
    rw [hexRoundtrip _ (encodeParameters_mem_lt th nonce fromA toA value validAfter validBefore
      hth hn), henc]
  unfold signEIP712digest specDigest
  rw [hsh]
  congr 1
  rw [(by decide : strCodes (r"1901") = [49, 57, 48, 49])]
  have hlen1 : (([49, 57, 48, 49] : List Nat) ++ bytesToHexChars ds).length % 2 = 0 := by
    have := bytesToHexChars_length_even ds
    simp only [List.length_append, List.length_cons, List.length_nil]
    omega
  rw [hexCharsToBytes_append ([49, 57, 48, 49] ++ bytesToHexChars ds) _ hlen1,
    hexCharsToBytes_append [49, 57, 48, 49] _ (by rfl),
    hexRoundtrip ds hds, hexRoundtrip _ (keccak256_mem_lt _),
    (by decide : hexCharsToBytes [49, 57, 48, 49] = [25, 1])]
  simp

/-- Witness for C1 at a concrete authorization. -/
theorem signEIP712_digest_spec_witness :
    (∀ b ∈ List.replicate 32 0, b < 256) ∧ (∀ b ∈ List.replicate 32 1, b < 256) ∧
    (3 < 2 ^ 160) ∧ (5 < 2 ^ 160) ∧
    signEIP712digest (List.replicate 32 0) (List.replicate 32 0) 3 5 7 0 100
        (List.replicate 32 1) =
      specDigest (List.replicate 32 0) (List.replicate 32 0) 3 5 7 0 100
        (List.replicate 32 1) :=
  ⟨by decide, by decide, by norm_num, by norm_num,
    signEIP712_digest_spec (List.replicate 32 0) (List.replicate 32 0) (List.replicate 32 1)
      3 5 7 0 100 (by decide) (by decide) (by decide) (by norm_num) (by norm_num)⟩

/-- C2 (code evaluated at the failing input): `signAuthorization` in
working-receive-example.js and part_004 hands the ECDSA primitive the
keccak256 of the EIP-191 personal-message envelope of the digest, not the
raw EIP-712 digest itself; at the all-zero 32-byte digest the two differ. -/
theorem signAuthorization_prefixed_digest :
    signAuthorizationSignedHash (List.replicate 32 0) ≠ List.replicate 32 0 := by decide

/-- C4: the TRANSFER type hash computed by the scripts from the canonical
ASCII string equals the published EIP-3009 constant
0x7c7c6cdb67a18743f49ec6fa9b35f50d52ed05cbed4cc592e13b44501c1a2267, while a
field reordering or an added space produces a different hash. -/
theorem transfer_typehash_constant :
    TRANSFER_WITH_AUTHORIZATION_TYPEHASH = eip3009TransferTypeHash ∧
    keccak256 transferTypeStringReordered ≠ eip3009TransferTypeHash ∧
    keccak256 transferTypeStringWhitespace ≠ eip3009TransferTypeHash :=
  ⟨by decide, by decide, by decide⟩

/-! ### Signature formatting lemmas -/

theorem sig_reconstruct (sig : List Nat) (h : sig.length = 65) :
    sig.take 32 ++ (sig.drop 32).take 32 ++ [sig.getD 64 0] = sig := by
  have h64 : (64 : Nat) < sig.length := by omega
  have hd : sig.drop 64 = [sig.getD 64 0] := by
    rw [List.drop_eq_getElem_cons h64, List.getD_eq_getElem sig 0 h64,
      List.drop_eq_nil_of_le (by omega)]
  calc sig.take 32 ++ (sig.drop 32).take 32 ++ [sig.getD 64 0]
      = sig.take (32 + 32) ++ [sig.getD 64 0] := by rw [List.take_add]
    _ = sig.take 64 ++ sig.drop 64 := by rw [hd]
    _ = sig := List.take_append_drop 64 sig

theorem packed_getD (a : List Nat) (v d : Nat) (ha : a.length = 64) :
    (a ++ [v]).getD 64 d = v := by
  rw [show (64 : Nat) = a.length from ha.symm]
  simp [List.getD, List.getElem?_append_right (Nat.le_refl a.length)]

theorem formatSignatureForContract_eq (sig : List Nat) (h : sig.length = 65) :
    formatSignatureForContract sig =
      some (sig.take 32 ++ (sig.drop 32).take 32 ++
        [if sig.getD 64 0 < 27 then sig.getD 64 0 + 27 else sig.getD 64 0]) := by
  unfold formatSignatureForContract
  rw [if_pos h]

theorem formatSignatureForECRecover_eq (sig : List Nat) (h : sig.length = 65) :
    formatSignatureForECRecover sig =
      some (sig.take 32 ++ (sig.drop 32).take 32 ++
        [if sig.getD 64 0 < 27 then sig.getD 64 0 + 27 else sig.getD 64 0]) := by
  unfold formatSignatureForECRecover
  rw [if_pos h]

theorem formatted_length (sig : List Nat) (v : Nat) (h : sig.length = 65) :
    (sig.take 32 ++ (sig.drop 32).take 32 ++ [v]).length = 65 := by
  simp [List.length_append, List.length_take, List.length_drop, h]

theorem formatSignatureForContract_fixed (l : List Nat) (h : l.length = 65)
    (hv : ¬ l.getD 64 0 < 27) : formatSignatureForContract l = some l := by
  rw [formatSignatureForContract_eq l h, if_neg hv, sig_reconstruct l h]

theorem formatSignatureForECRecover_fixed (l : List Nat) (h : l.length = 65)
    (hv : ¬ l.getD 64 0 < 27) : formatSignatureForECRecover l = some l := by
  rw [formatSignatureForECRecover_eq l h, if_neg hv, sig_reconstruct l h]

theorem formatted_getD (sig : List Nat) (v d : Nat) (h : sig.length = 65) :
    (sig.take 32 ++ (sig.drop 32).take 32 ++ [v]).getD 64 d = v := by
  rw [List.append_assoc]
  have ha : (sig.take 32 ++ (sig.drop 32).take 32).length = 64 := by
    simp [List.length_append, List.length_take, List.length_drop, h]
  rw [← List.append_assoc]
  exact packed_getD _ v d ha

/-- C3 counterexample: `packSignature` applied to a signature with v = 27
produces a 65-byte packing whose final byte is 0, not 27 or 28, refuting the
claim that every cited normalization returns a final byte in 27/28. -/
theorem packSignature_v_not_27_28 :
    (packSignature (List.replicate 32 0) (List.replicate 32 0) 27).length = 65 ∧
    (packSignature (List.replicate 32 0) (List.replicate 32 0) 27).getD 64 99 ≠ 27 ∧
    (packSignature (List.replicate 32 0) (List.replicate 32 0) 27).getD 64 99 ≠ 28 :=
  ⟨by decide, by decide, by decide⟩

/-- C3 (amended): `formatSignatureForContract` and
`formatSignatureForECRecover` return exactly 65 bytes packed r ‖ s ‖ v with
the final byte normalized into 27/28 for raw v in 0/1/27/28, whereas
`packSignature` returns 65 bytes whose final byte is v − 27, that is 0 or 1,
for the v in 27/28 that `ecSign` produces. -/
theorem normalization_output_format (sig r s : List Nat) (v : Nat)
    (hsig : sig.length = 65)
    (hv : sig.getD 64 0 = 0 ∨ sig.getD 64 0 = 1 ∨ sig.getD 64 0 = 27 ∨ sig.getD 64 0 = 28)
    (hr : r.length = 32) (hs : s.length = 32) (hv27 : v = 27 ∨ v = 28) :
    (∃ out, formatSignatureForContract sig = some out ∧ out.length = 65 ∧
      (out.getD 64 0 = 27 ∨ out.getD 64 0 = 28)) ∧
    (∃ out, formatSignatureForECRecover sig = some out ∧ out.length = 65 ∧
      (out.getD 64 0 = 27 ∨ out.getD 64 0 = 28)) ∧
    (packSignature r s v).length = 65 ∧
    ((packSignature r s v).getD 64 0 = 0 ∨ (packSignature r s v).getD 64 0 = 1) := by
  have hnv : (if sig.getD 64 0 < 27 then sig.getD 64 0 + 27 else sig.getD 64 0) = 27 ∨
      (if sig.getD 64 0 < 27 then sig.getD 64 0 + 27 else sig.getD 64 0) = 28 := by
    rcases hv with h | h | h | h <;> rw [h] <;> norm_num
  have hps : packSignature r s v = r ++ s ++ [v - 27] := rfl
  have hplen : (r ++ s).length = 64 := by simp [hr, hs]
  refine ⟨⟨_, formatSignatureForContract_eq sig hsig, formatted_length sig _ hsig,
      by rw [formatted_getD sig _ 0 hsig]; exact hnv⟩,
    ⟨_, formatSignatureForECRecover_eq sig hsig, formatted_length sig _ hsig,
      by rw [formatted_getD sig _ 0 hsig]; exact hnv⟩, ?_, ?_⟩
  · rw [hps]; simp [List.length_append, hr, hs]
  · rw [hps, packed_getD _ _ _ hplen]
    rcases hv27 with h | h <;> rw [h] <;> norm_num

/-- Witness for C3 (amended) at a concrete signature with raw v = 1 and a
packed signature with v = 28. -/
theorem normalization_output_format_witness :
    ∃ out, formatSignatureForContract (List.replicate 64 0 ++ [1]) = some out ∧
      out.length = 65 ∧ (out.getD 64 0 = 27 ∨ out.getD 64 0 = 28) :=
  (normalization_output_format (List.replicate 64 0 ++ [1]) (List.replicate 32 0)
    (List.replicate 32 0) 28 (by decide) (by decide) (by decide) (by decide)
    (Or.inr rfl)).1

/-- C9: normalization is idempotent: a 65-byte signature whose final byte is
already 27 or 28 is returned unchanged by both formatters, and any formatted
output is a fixed point of the formatter that produced it. -/
theorem normalization_idempotent (sig : List Nat) (h : sig.length = 65) :
    ((sig.getD 64 0 = 27 ∨ sig.getD 64 0 = 28) →
      formatSignatureForContract sig = some sig ∧
      formatSignatureForECRecover sig = some sig) ∧
    (∀ out, formatSignatureForContract sig = some out →
      formatSignatureForContract out = some out) ∧
    (∀ out, formatSignatureForECRecover sig = some out →
      formatSignatureForECRecover out = some out) := by
  have hfix : ∀ out, out.length = 65 → ¬ out.getD 64 0 < 27 →
      formatSignatureForContract out = some out ∧
      formatSignatureForECRecover out = some out :=
    fun out h1 h2 => ⟨formatSignatureForContract_fixed out h1 h2,
      formatSignatureForECRecover_fixed out h1 h2⟩
  have hout : ∀ out, some (sig.take 32 ++ (sig.drop 32).take 32 ++
        [if sig.getD 64 0 < 27 then sig.getD 64 0 + 27 else sig.getD 64 0]) = some out →
      out.length = 65 ∧ ¬ out.getD 64 0 < 27 := by
    intro out hsome
    have heq := Option.some.inj hsome
    constructor
    · rw [← heq]; exact formatted_length sig _ h
    · rw [← heq, formatted_getD sig _ 0 h]
      split_ifs with hlt <;> omega
  refine ⟨fun hv => ?_, fun out hsome => ?_, fun out hsome => ?_⟩
  · exact hfix sig h (by rcases hv with hv | hv <;> omega)
  · rw [formatSignatureForContract_eq sig h] at hsome
    exact (hfix out (hout out hsome).1 (hout out hsome).2).1
  · rw [formatSignatureForECRecover_eq sig h] at hsome
    exact (hfix out (hout out hsome).1 (hout out hsome).2).2

/-- Witness for C9 at a 65-byte signature already ending in 27. -/
theorem normalization_idempotent_witness :
    formatSignatureForContract (List.replicate 64 0 ++ [27]) =
      some (List.replicate 64 0 ++ [27]) ∧
    formatSignatureForECRecover (List.replicate 64 0 ++ [27]) =
      some (List.replicate 64 0 ++ [27]) :=
  (normalization_idempotent (List.replicate 64 0 ++ [27]) (by decide)).1 (Or.inl (by decide))

/-- C7 counterexample: the amount "0" is not rejected; the value assembled
by createTransferAuthorization for it is 0 with no error raised. -/
theorem zero_amount_not_rejected :
    createTransferAuthorizationValue (strCodes (r"0")) = some 0 := by decide

/-- C7 (amended): amount conversion is exact integer arithmetic: "50" gives
50000000 base units and "0.000001" gives 1, but "0" converts to 0 base units
without any error (the scripts perform no positivity check). -/
theorem parseUnits6_exact_conversions :
    parseUnits6 (strCodes (r"50")) = some 50000000 ∧
    parseUnits6 (strCodes (r"0.000001")) = some 1 ∧
    createTransferAuthorizationValue (strCodes (r"0")) = some 0 :=
  ⟨by decide, by decide, by decide⟩

/-- C5 counterexample: the receive helper throws (models as an error) for a
pending, well-formed, legitimately not-executable authorization instead of
returning a classification. -/
theorem receive_throws_for_pending :
    receiveWithAuthorization
      ⟨strCodes (r"0xaaaa"), strCodes (r"0xAbCd"), 10, 1000, 2000, []⟩
      (strCodes (r"0xabcd")) 500 false = .error .notYetValid := rfl

/-- C5 (amended): the receive path's checks classify every tuple into
exactly one of the five outcomes, characterized by mutually exclusive and
exhaustive conditions, but the helper reaches the contract call only on
EXECUTABLE and throws on each of the four other outcomes. -/
theorem receive_outcome_classification (auth : Authorization) (receiver : List Nat)
    (t : Nat) (used : Bool) :
    (outcomeOf (receiveWithAuthorization auth receiver t used) = .UNAUTHORIZED_SUBMITTER ↔
      lowerStr auth.toAddr ≠ lowerStr receiver) ∧
    (outcomeOf (receiveWithAuthorization auth receiver t used) = .PENDING ↔
      lowerStr auth.toAddr = lowerStr receiver ∧ t < auth.validAfter) ∧
    (outcomeOf (receiveWithAuthorization auth receiver t used) = .EXPIRED ↔
      lowerStr auth.toAddr = lowerStr receiver ∧ auth.validAfter ≤ t ∧ auth.validBefore < t) ∧
    (outcomeOf (receiveWithAuthorization auth receiver t used) = .CONSUMED ↔
      lowerStr auth.toAddr = lowerStr receiver ∧ auth.validAfter ≤ t ∧ t ≤ auth.validBefore ∧
        used = true) ∧
    (outcomeOf (receiveWithAuthorization auth receiver t used) = .EXECUTABLE ↔
      lowerStr auth.toAddr = lowerStr receiver ∧ auth.validAfter ≤ t ∧ t ≤ auth.validBefore ∧
        used = false) ∧
    ((∃ sub, receiveWithAuthorization auth receiver t used = .ok sub) ↔
      outcomeOf (receiveWithAuthorization auth receiver t used) = .EXECUTABLE) := by
  unfold receiveWithAuthorization
  split_ifs with h1 h2 h3 h4 <;> simp_all [outcomeOf, Nat.not_lt]

/-- Witness for C5 (amended): a pending tuple is classified PENDING. -/
theorem receive_outcome_classification_witness :
    outcomeOf (receiveWithAuthorization ⟨[], [], 1, 1000, 2000, []⟩ [] 500 false) = .PENDING :=
  (receive_outcome_classification ⟨[], [], 1, 1000, 2000, []⟩ [] 500 false).2.1.mpr
    ⟨rfl, by decide⟩

/-- C6: a RECEIVE submitter differing from `to` beyond letter case is
classified UNAUTHORIZED_SUBMITTER, distinct from EXECUTABLE, EXPIRED and
CONSUMED; a submitter equal to `to` up to letter case passes the recipient
check, and executes when inside the window with an unused nonce. -/
theorem receive_submitter_restriction (auth : Authorization) (receiver : List Nat)
    (t : Nat) (used : Bool) :
    (lowerStr auth.toAddr ≠ lowerStr receiver →
      outcomeOf (receiveWithAuthorization auth receiver t used) = .UNAUTHORIZED_SUBMITTER ∧
      outcomeOf (receiveWithAuthorization auth receiver t used) ≠ .EXECUTABLE ∧
      outcomeOf (receiveWithAuthorization auth receiver t used) ≠ .EXPIRED ∧
      outcomeOf (receiveWithAuthorization auth receiver t used) ≠ .CONSUMED) ∧
    (lowerStr auth.toAddr = lowerStr receiver →
      receiveWithAuthorization auth receiver t used ≠ .error .recipientMismatch ∧
      (auth.validAfter ≤ t → t ≤ auth.validBefore → used = false →
        receiveWithAuthorization auth receiver t used =
          .ok ⟨auth.fromAddr, auth.toAddr, auth.value, auth.validAfter, auth.validBefore,
            auth.nonce⟩)) := by
  constructor
  · intro h
    simp [receiveWithAuthorization, h, outcomeOf]
  · intro h
    constructor
    · unfold receiveWithAuthorization
      split_ifs <;> simp_all
    · intro h1 h2 h3
      unfold receiveWithAuthorization
      rw [if_neg (by simp [h]), if_neg (by omega), if_neg (by omega), if_neg (by simp [h3])]

/-- Witness for C6: mismatch gives UNAUTHORIZED_SUBMITTER; a same-up-to-case
submitter executes. -/
theorem receive_submitter_restriction_witness :
    outcomeOf (receiveWithAuthorization ⟨[], strCodes (r"0xAb"), 1, 0, 10, []⟩
      (strCodes (r"0xcd")) 5 false) = .UNAUTHORIZED_SUBMITTER ∧
    receiveWithAuthorization ⟨[], strCodes (r"0xAb"), 1, 0, 10, []⟩
      (strCodes (r"0xab")) 5 false = .ok ⟨[], strCodes (r"0xAb"), 1, 0, 10, []⟩ :=
  ⟨((receive_submitter_restriction ⟨[], strCodes (r"0xAb"), 1, 0, 10, []⟩
      (strCodes (r"0xcd")) 5 false).1 (by decide)).1,
    ((receive_submitter_restriction ⟨[], strCodes (r"0xAb"), 1, 0, 10, []⟩
      (strCodes (r"0xab")) 5 false).2 (by decide)).2 (by decide) (by decide) rfl⟩

/-- C8: the execution helpers never reach the external contract call when a
pre-flight check fails: before the window (beyond the helper's tolerated
buffer), after expiry, or with a used nonce the helper errors out before the
submission step. -/
theorem preflight_blocks_submission (auth : Authorization) (t : Nat) (used : Bool)
    (balance : Nat) :
    ((t < auth.validAfter ∨ auth.validBefore < t ∨ used = true) →
      ∀ sub, transferWithAuthorization auth t used ≠ .ok sub) ∧
    ((t < auth.validAfter - 60 ∨ auth.validBefore < t ∨ used = true) →
      ∀ sub, executeTransferWithAuth auth t used balance ≠ .ok sub) := by
  constructor
  · rintro (h | h | h) sub <;> unfold transferWithAuthorization <;>
      split_ifs <;> simp_all
  · rintro (h | h | h) sub <;> unfold executeTransferWithAuth <;>
      split_ifs <;> simp_all

/-- Witness for C8 at a pending authorization submitted through both
helpers. -/
theorem preflight_blocks_submission_witness :
    ((500 : Nat) < 1000 ∨ (2000 : Nat) < 500 ∨ false = true) ∧
    transferWithAuthorization ⟨[], [], 1, 1000, 2000, []⟩ 500 false ≠
      .ok ⟨[], [], 1, 1000, 2000, []⟩ ∧
    executeTransferWithAuth ⟨[], [], 1, 1000, 2000, []⟩ 500 false 7 ≠
      .ok ⟨[], [], 1, 1000, 2000, []⟩ :=
  ⟨Or.inl (by decide),
    (preflight_blocks_submission ⟨[], [], 1, 1000, 2000, []⟩ 500 false 7).1
      (Or.inl (by decide)) ⟨[], [], 1, 1000, 2000, []⟩,
    (preflight_blocks_submission ⟨[], [], 1, 1000, 2000, []⟩ 500 false 7).2
      (Or.inl (by decide)) ⟨[], [], 1, 1000, 2000, []⟩⟩

/-- C10: in the receive execution path the recipient-match check precedes
every time and nonce check: any case-insensitive mismatch yields the
recipient-mismatch error whatever the clock and nonce state say. -/
theorem recipient_check_first (auth : Authorization) (receiver : List Nat) (t : Nat)
    (used : Bool) (h : lowerStr auth.toAddr ≠ lowerStr receiver) :
    receiveWithAuthorization auth receiver t used = .error .recipientMismatch := by
  simp [receiveWithAuthorization, h]

/-- Witness for C10 at an authorization that is also expired and consumed. -/
theorem recipient_check_first_witness :
    lowerStr (strCodes (r"0xAb")) ≠ lowerStr (strCodes (r"0xcd")) ∧
    receiveWithAuthorization ⟨[], strCodes (r"0xAb"), 1, 1000, 2000, []⟩
      (strCodes (r"0xcd")) 5000 true = .error .recipientMismatch :=
  ⟨by decide, recipient_check_first ⟨[], strCodes (r"0xAb"), 1, 1000, 2000, []⟩
    (strCodes (r"0xcd")) 5000 true (by decide)⟩

end Stablecoin

